import Mathlib

set_option autoImplicit false

/-!
Shallow embedding of the `hyper-http` request dispatch engine
(`src/core.ts`, class `HyperRequest`) together with its route/decorator
data (`src/decorators.ts`).  JavaScript records are modelled as
association lists, JS `JSON.stringify` as `Json.render`, thrown
exceptions as `Except Unit`, and the observable behaviour of one call to
`handleRequest` as the ordered list of effects it performs (header
writes, response end, cache-store calls, handler invocations).
-/

/-- JSON values, the data carried by request bodies, decoded JWT claims
and handler results. -/
inductive Json where
  | null : Json
  | bool : Bool → Json
  | num : Int → Json
  | str : String → Json
  | arr : List Json → Json
  | obj : List (String × Json) → Json
deriving Repr, BEq

mutual

/-- Serialization of JSON values, modelling `JSON.stringify` as used at
`core.ts` lines 106, 118, 120 and 127 (string escaping is not modelled;
no claim depends on it). -/
def Json.render : Json → String
  | .null => "null"
  | .bool true => "true"
  | .bool false => "false"
  | .num n => n.repr
  | .str s => "\"" ++ s ++ "\""
  | .arr xs => "[" ++ Json.renderElems xs ++ "]"
  | .obj fs => "\x7b" ++ Json.renderFields fs ++ "\x7d"

/-- Comma-separated rendering of the elements of a JSON array. -/
def Json.renderElems : List Json → String
  | [] => ""
  | [x] => Json.render x
  | x :: y :: xs => Json.render x ++ "," ++ Json.renderElems (y :: xs)

/-- Comma-separated rendering of the fields of a JSON object. -/
def Json.renderFields : List (String × Json) → String
  | [] => ""
  | [(k, v)] => "\"" ++ k ++ "\":" ++ Json.render v
  | (k, v) :: f :: fs => "\"" ++ k ++ "\":" ++ Json.render v ++ "," ++ Json.renderFields (f :: fs)

end

/-- String-to-string records (path params, headers, query) embedded as
JSON objects, as they are when passed to handlers or stringified. -/
def strObj (l : List (String × String)) : Json :=
  Json.obj (l.map (fun p => (p.1, Json.str p.2)))

/-- Splitting a character list at every occurrence of `sep`,
the char-level core of JS `String.prototype.split`. -/
def splitChars (sep : Char) : List Char → List (List Char)
  | [] => [[]]
  | c :: cs =>
    match splitChars sep cs with
    | [] => [[]]
    | g :: gs => if c = sep then [] :: g :: gs else (c :: g) :: gs

/-- JS `s.split(sep)` for a one-character separator. -/
def splitOn1 (sep : Char) (s : String) : List String :=
  (splitChars sep s.data).map List.asString

/-- JS `seg.startsWith(':')` (`core.ts` lines 61, 67, 207). -/
def segStartsWithColon (s : String) : Bool :=
  match s.data with
  | c :: _ => c = ':'
  | [] => false

/-- JS `seg.slice(1)`, the capture name of a `:name` segment. -/
def segDropFirst (s : String) : String :=
  (s.data.drop 1).asString

/-- JS `s.toLowerCase()` restricted to ASCII, as applied to HTTP method
names (`core.ts` lines 59, 146). -/
def lowerStr (s : String) : String :=
  (s.data.map Char.toLower).asString

/-- Assignment `r[k] = v` on a JS record: replace the value in place if
the key exists, append otherwise. -/
def recordSet (l : List (String × String)) (k v : String) : List (String × String) :=
  if l.any (fun p => p.1 == k) then
    l.map (fun p => if p.1 == k then (p.1, v) else p)
  else l ++ [(k, v)]

/-- Loop body of `matchRoute` (`core.ts` lines 206-212): walk the
pattern and path segments in lockstep, recording captures and comparing
literals. -/
def matchSegsAux : List String → List String → List (String × String) →
    Option (List (String × String))
  | [], [], acc => some acc
  | r :: rs, u :: us, acc =>
    if segStartsWithColon r then matchSegsAux rs us (recordSet acc (segDropFirst r) u)
    else if r == u then matchSegsAux rs us acc
    else none
  | _, _, _ => none

/-- `matchRoute` (`core.ts` lines 196-215): split both strings on `/`,
fail on differing segment counts, then walk segments pairwise. -/
def matchRoute (route url : String) : Option (List (String × String)) :=
  let routeParts := splitOn1 '/' route
  let urlParts := splitOn1 '/' url
  if routeParts.length != urlParts.length then none
  else matchSegsAux routeParts urlParts []

/-- The pairs (capture name, path segment) of a pattern/path pair, in
segment order: the record assignments `matchRoute` performs. -/
def capturePairs (rs us : List String) : List (String × String) :=
  (rs.zip us).filterMap
    (fun p => if segStartsWithColon p.1 then some (segDropFirst p.1, p.2) else none)

/-- The record obtained by performing a list of assignments in order on
an empty record. -/
def buildParams (l : List (String × String)) : List (String × String) :=
  l.foldl (fun acc kv => recordSet acc kv.1 kv.2) []

/-- The spec's side condition for a path match: equal segment counts and
every literal (non-capture) pattern segment equal to the corresponding
path segment. -/
def matchConds (rs us : List String) : Prop :=
  rs.length = us.length ∧
    ∀ i, i < rs.length → segStartsWithColon (rs.getD i "") = false →
      rs.getD i "" = us.getD i ""

/-- A route definition as the dispatcher sees it after metadata lookup:
`requestMethod`/`fullPath` from `decorators.ts` plus the pre-normalized
pattern of `core.ts` lines 53-56, the operation name, the `auth`
parameter metadata of `BearerAuth` (`(index, claimName)` pairs; absent
when the route has no auth-bound parameter), and the cache metadata
(`cachedMethods` membership and `cacheTtl`). -/
structure RouteDef where
  requestMethod : String
  fullPath : String
  methodName : String
  authParams : Option (List (Nat × String))
  cached : Bool
  cacheTtl : Nat
deriving Repr

/-- A decoded JWT, the model of what the external `jsonwebtoken.verify`
recovers from a well-formed token string. -/
structure JwtToken where
  claims : List (String × Json)
  signedWith : String
  exp : Option Int
deriving Repr

/-- An inbound request as the dispatcher consumes it: method, pathname,
headers (keys lowercased by the HTTP layer), parsed query record, and
the outcome of reading and `JSON.parse`-ing the raw body
(`Except.error` models a rejected `getJsonBody` promise). -/
structure Request where
  method : String
  path : String
  headers : List (String × String)
  query : List (String × String)
  bodyParse : Except Unit Json

/-- JS `req.headers[name]` (header keys are already lowercase). -/
def getHeader (req : Request) (name : String) : Option String :=
  req.headers.lookup name

/-- The external world of one `handleRequest` call: the configured
signing secret, the clock and token decoder behind `jsonwebtoken`, the
controller methods, and the redis client whose calls may reject. -/
structure Env where
  jwtSecret : Option String
  now : Int
  decode : String → Option JwtToken
  handlers : String → List Json → Except Unit Json
  cacheGet : String → Except Unit (Option String)
  cacheSet : String → String → Nat → Except Unit Unit

/-- Modelled from the spec: the token-verification boundary (spec §6),
`verify(token, secret, {ignoreExpiration: true})` of the external
`jsonwebtoken` package — success exactly when the token decodes and its
signature matches the secret, with expiry consulted only when
`ignoreExpiration` is false. -/
def jwtVerify (env : Env) (tokenStr secret : String) (ignoreExpiration : Bool) :
    Option (List (String × Json)) :=
  match env.decode tokenStr with
  | none => none
  | some tok =>
    if tok.signedWith = secret then
      if ignoreExpiration then some tok.claims
      else
        match tok.exp with
        | none => some tok.claims
        | some e => if e < env.now then none else some tok.claims
    else none

/-- One observable effect of `handleRequest`: a response-header write, a
response end (with the status code in force at that moment), a cache
read, a cache write, or a handler invocation. -/
inductive Event where
  | setHeader : String → String → Event
  | endResponse : Nat → String → Event
  | cacheGet : String → Event
  | cacheSet : String → String → Nat → Event
  | invoke : String → List Json → Event
deriving Repr, BEq

/-- JSON error body `JSON.stringify({error: msg})` written by the
`unauthorized`, `notFound` and `internalServerError` helpers. -/
def errorBody (msg : String) : String :=
  "\x7b\"error\":\"" ++ msg ++ "\"\x7d"

/-- Effects of `unauthorized` (`core.ts` lines 161-165). -/
def unauthorizedEvents : List Event :=
  [Event.setHeader "Content-Type" "application/json",
   Event.endResponse 401 (errorBody "Unauthorized")]

/-- Effects of `notFound` (`core.ts` lines 167-171). -/
def notFoundEvents : List Event :=
  [Event.setHeader "Content-Type" "application/json",
   Event.endResponse 404 (errorBody "Not found")]

/-- Effects of `internalServerError` (`core.ts` lines 173-177). -/
def internalErrorEvents : List Event :=
  [Event.setHeader "Content-Type" "application/json",
   Event.endResponse 500 (errorBody "Internal Server Error")]

/-- The record returned by `extractParams` (`core.ts` lines 140-159),
together with the numeric keys later assigned onto it by the auth
binding loop (lines 88-95); `numeric` is kept sorted by key, mirroring
the ascending enumeration order of integer-like keys on JS objects. -/
structure ExtractedParams where
  body : Json
  params : Option (List (String × String))
  headers : List (String × String)
  query : List (String × String)
  numeric : List (Nat × Json)

/-- Assignment `o[i] = v` for an integer-like key on a JS object,
keeping the key list in ascending order. -/
def insertNum : List (Nat × Json) → Nat → Json → List (Nat × Json)
  | [], k, v => [(k, v)]
  | (k', v') :: rest, k, v =>
    if k = k' then (k, v) :: rest
    else if k < k' then (k, v) :: (k', v') :: rest
    else (k', v') :: insertNum rest k v

/-- JS `Object.values` on the params record: integer-like keys first in
ascending order, then the string keys in insertion order
(`body`, `params`, `headers`, `query`). -/
def objectValues (p : ExtractedParams) : List Json :=
  p.numeric.map Prod.snd ++
    [p.body, strObj (p.params.getD []), strObj p.headers, strObj p.query]

/-- `extractParams` (`core.ts` lines 140-159): parse the body as JSON
only for non-GET requests with `Content-Type: application/json`
(a parse failure propagates as a thrown error), and run `matchRoute`
for the path params. -/
def extractParams (req : Request) (path : String) : Except Unit ExtractedParams :=
  let parsedBody : Except Unit Json :=
    if lowerStr req.method != "get" && (getHeader req "content-type" == some "application/json")
    then req.bodyParse
    else Except.ok (Json.obj [])
  match parsedBody with
  | Except.error e => Except.error e
  | Except.ok body =>
    Except.ok { body := body, params := matchRoute path req.path,
                headers := req.headers, query := req.query, numeric := [] }

/-- The dispatch-loop segment test (`core.ts` line 61):
`fullPathSegments.every((seg, i) => seg.startsWith(':') || seg === pathSegments[i])`,
with a length mismatch already excluded by line 60. -/
def segsEvery : List String → List String → Bool
  | [], [] => true
  | r :: rs, u :: us => (segStartsWithColon r || r == u) && segsEvery rs us
  | _, _ => false

/-- The dispatch condition of `core.ts` lines 58-62: method equal after
lowercasing the request method, equal segment counts, and every pattern
segment a capture or equal to the path segment. -/
def routeMatches (route : RouteDef) (req : Request) : Bool :=
  (lowerStr req.method == route.requestMethod) &&
    ((splitOn1 '/' route.fullPath).length == (splitOn1 '/' req.path).length) &&
    segsEvery (splitOn1 '/' route.fullPath) (splitOn1 '/' req.path)

/-- The capture re-assignment loop of `core.ts` lines 66-71: for every
capture segment, assign the corresponding path segment onto the params
record (idempotent, since `matchRoute` already recorded those values). -/
def reassignCaptures (segs urlSegs : List String) (ps : List (String × String)) :
    List (String × String) :=
  (segs.zip urlSegs).foldl
    (fun acc p => if segStartsWithColon p.1 then recordSet acc (segDropFirst p.1) p.2 else acc) ps

/-- Outcome of the auth block (`core.ts` lines 75-104). -/
inductive AuthOutcome where
  | skip : AuthOutcome
  | ok : List (String × Json) → AuthOutcome
  | unauthorized : AuthOutcome
  | internalError : AuthOutcome
deriving Repr, BEq

/-- JS `bearerHeader.startsWith('Bearer ')`. -/
def hasBearer (s : String) : Bool :=
  s.data.take 7 == "Bearer ".data

/-- JS `bearerHeader.split(' ')[1]`, the token substring. -/
def tokenOf (s : String) : String :=
  (splitOn1 ' ' s).getD 1 ""

/-- The auth block of `core.ts` lines 75-104: skipped when the route has
no `auth` metadata; 401 when the `Authorization` header is absent or not
`Bearer`-prefixed; 500 when no signing secret is configured; 401 when
verification fails; otherwise the decoded claims. -/
def authenticate (env : Env) (route : RouteDef) (req : Request) : AuthOutcome :=
  match route.authParams with
  | none => AuthOutcome.skip
  | some _ =>
    match getHeader req "authorization" with
    | some bearerHeader =>
      if hasBearer bearerHeader then
        match env.jwtSecret with
        | none => AuthOutcome.internalError
        | some secret =>
          match jwtVerify env (tokenOf bearerHeader) secret true with
          | some claims => AuthOutcome.ok claims
          | none => AuthOutcome.unauthorized
      else AuthOutcome.unauthorized
    | none => AuthOutcome.unauthorized

/-- The value bound for one auth parameter (`core.ts` lines 88-95): the
whole claims object for `__allAuthParams`, otherwise the named claim
(`Json.null` models JS `undefined` for a missing claim). -/
def claimValue (claims : List (String × Json)) (name : String) : Json :=
  if name = "__allAuthParams" then Json.obj claims
  else
    match claims.lookup name with
    | some v => v
    | none => Json.null

/-- The auth-binding loop of `core.ts` lines 88-95: assign each auth
parameter's value onto the params record under its numeric index. -/
def bindAuthParams (aps : List (Nat × String)) (claims : List (String × Json))
    (nums : List (Nat × Json)) : List (Nat × Json) :=
  aps.foldl (fun acc p => insertNum acc p.1 (claimValue claims p.2)) nums

/-- JS truthiness of `cachedResult : string | null` (`core.ts` line
110): `null` and the empty string are falsy. -/
def truthyOpt : Option String → Bool
  | none => false
  | some s => s != ""

/-- The cache key of `core.ts` line 106: the full path, a colon, and
the stringified path-params record. -/
def cacheKeyOf (fullPath : String) (pparams : List (String × String)) : String :=
  fullPath ++ ":" ++ Json.render (strObj pparams)

/-- How one route's body terminates: it did not match (loop continues),
it wrote a response and returned, or it threw (the exception reaches the
top-level catch). The payload is the list of effects performed. -/
inductive RouteStep where
  | noMatch : RouteStep
  | done : List Event → RouteStep
  | threw : List Event → RouteStep
deriving Repr, BEq

/-- The uncached invocation path (`core.ts` lines 125-128): call the
operation with `...Object.values(params)` and respond with its
serialized result; a handler exception propagates. -/
def invokeAndRespond (env : Env) (route : RouteDef) (p : ExtractedParams) : RouteStep :=
  let args := objectValues p
  match env.handlers route.methodName args with
  | Except.error _ => RouteStep.threw [Event.invoke route.methodName args]
  | Except.ok result =>
    RouteStep.done
      [Event.invoke route.methodName args,
       Event.setHeader "Content-Type" "application/json",
       Event.endResponse 200 (Json.render result)]

/-- The cache gate and invocation (`core.ts` lines 106-128): for cached
routes, `redis.get`; on a truthy value respond from cache with the HIT
marker and `Cache-Control`; otherwise invoke the handler, `redis.set`
the serialized result with the TTL, and respond with it.  Either redis
call may throw. -/
def cacheGate (env : Env) (route : RouteDef) (p : ExtractedParams)
    (pparams : List (String × String)) : RouteStep :=
  let cacheKey := cacheKeyOf route.fullPath pparams
  if route.cached then
    match env.cacheGet cacheKey with
    | Except.error _ => RouteStep.threw [Event.cacheGet cacheKey]
    | Except.ok r =>
      if truthyOpt r then
        RouteStep.done
          [Event.cacheGet cacheKey,
           Event.setHeader "X-Cache" "HIT",
           Event.setHeader "Cache-Control" ("public, max-age=" ++ Nat.repr route.cacheTtl),
           Event.setHeader "Content-Type" "application/json",
           Event.endResponse 200 (r.getD "")]
      else
        let args := objectValues p
        match env.handlers route.methodName args with
        | Except.error _ =>
          RouteStep.threw [Event.cacheGet cacheKey, Event.invoke route.methodName args]
        | Except.ok result =>
          match env.cacheSet cacheKey (Json.render result) route.cacheTtl with
          | Except.error _ =>
            RouteStep.threw
              [Event.cacheGet cacheKey, Event.invoke route.methodName args,
               Event.cacheSet cacheKey (Json.render result) route.cacheTtl]
          | Except.ok _ =>
            RouteStep.done
              [Event.cacheGet cacheKey, Event.invoke route.methodName args,
               Event.cacheSet cacheKey (Json.render result) route.cacheTtl,
               Event.setHeader "Content-Type" "application/json",
               Event.endResponse 200 (Json.render result)]
  else invokeAndRespond env route p

/-- One iteration of the route loop (`core.ts` lines 52-130): dispatch
condition, parameter extraction (body parse may throw), capture
re-assignment, auth block (its 401/500 write and return), then the
cache gate / invocation. -/
def handleRoute (env : Env) (route : RouteDef) (req : Request) : RouteStep :=
  if routeMatches route req then
    match extractParams req route.fullPath with
    | Except.error _ => RouteStep.threw []
    | Except.ok p =>
      match p.params with
      | none => RouteStep.noMatch
      | some pparams0 =>
        let pparams :=
          reassignCaptures (splitOn1 '/' route.fullPath) (splitOn1 '/' req.path) pparams0
        match authenticate env route req with
        | AuthOutcome.internalError => RouteStep.done internalErrorEvents
        | AuthOutcome.unauthorized => RouteStep.done unauthorizedEvents
        | AuthOutcome.ok claims =>
          cacheGate env route
            { p with params := some pparams,
                     numeric := bindAuthParams (route.authParams.getD []) claims p.numeric }
            pparams
        | AuthOutcome.skip =>
          cacheGate env route { p with params := some pparams } pparams
  else RouteStep.noMatch

/-- The route loop plus the `notFound` fall-through and the top-level
catch of `handleRequest` (`core.ts` lines 41-138): the first route that
responds or throws ends the request; a throw is answered by
`internalServerError`. -/
def dispatchRoutes (env : Env) (req : Request) : List RouteDef → List Event
  | [] => notFoundEvents
  | r :: rs =>
    match handleRoute env r req with
    | RouteStep.noMatch => dispatchRoutes env req rs
    | RouteStep.done t => t
    | RouteStep.threw t => t ++ internalErrorEvents

/-- `handleRequest` over the flattened, registration-ordered route table
(the controller loop of lines 47-132 composed with each controller's
route list). -/
def handleRequest (env : Env) (routes : List RouteDef) (req : Request) : List Event :=
  dispatchRoutes env req routes

/-- The first registered route whose dispatch condition holds. -/
def firstMatch (routes : List RouteDef) (req : Request) : Option RouteDef :=
  routes.find? (fun r => routeMatches r req)

/-- The cache key `handleRequest` computes for a request on a route: the
pattern, then `:`, then the stringified path-params record. -/
def requestCacheKey (route : RouteDef) (req : Request) : String :=
  cacheKeyOf route.fullPath
    (reassignCaptures (splitOn1 '/' route.fullPath) (splitOn1 '/' req.path)
      ((matchRoute route.fullPath req.path).getD []))
/-- Events a finished route body contributes to the request's trace: a
response (`done`) as is, a throw followed by the top-level catch's
`internalServerError`. -/
def stepEvents : RouteStep → List Event
  | RouteStep.noMatch => []
  | RouteStep.done t => t
  | RouteStep.threw t => t ++ internalErrorEvents

/-- Whether an event ends the response (`res.end`). -/
def isEnd : Event → Bool
  | Event.endResponse _ _ => true
  | _ => false

/-- Number of response ends in a trace. -/
def endCount : List Event → Nat
  | [] => 0
  | e :: t => (if isEnd e then 1 else 0) + endCount t

/-- A response end carries the canonical JSON error body for its failure
status code (non-failure events and 200 ends are unconstrained). -/
def failureEndOk : Event → Prop
  | Event.endResponse 401 b => b = errorBody "Unauthorized"
  | Event.endResponse 404 b => b = errorBody "Not found"
  | Event.endResponse 500 b => b = errorBody "Internal Server Error"
  | _ => True

/-- A well-formed route-body outcome: a response writes exactly one end
and a throw none, and every end in either carries the canonical error
body for its failure status. -/
def stepGood : RouteStep → Prop
  | RouteStep.noMatch => True
  | RouteStep.done t => endCount t = 1 ∧ ∀ e ∈ t, failureEndOk e
  | RouteStep.threw t => endCount t = 0 ∧ ∀ e ∈ t, failureEndOk e

/-- The trace of a cache hit (`core.ts` lines 110-115) for a stored
value `s` under key `k` on a route with TTL `ttl`. -/
def hitEvents (k s : String) (ttl : Nat) : List Event :=
  [Event.cacheGet k,
   Event.setHeader "X-Cache" "HIT",
   Event.setHeader "Cache-Control" ("public, max-age=" ++ Nat.repr ttl),
   Event.setHeader "Content-Type" "application/json",
   Event.endResponse 200 s]

/-- A token for concrete runs: subject claim `alice`, signed with `s`,
long expired relative to `baseEnv.now`. -/
def aliceToken : JwtToken :=
  { claims := [("sub", Json.str "alice")], signedWith := "s", exp := some 5 }

/-- A second token for concrete runs: subject claim `bob`, same secret,
also expired. -/
def bobToken : JwtToken :=
  { claims := [("sub", Json.str "bob")], signedWith := "s", exp := some 7 }

/-- A concrete environment: secret `s`, two known token strings, every
handler returning the JSON string `"r"`, an empty but healthy cache. -/
def baseEnv : Env :=
  { jwtSecret := some "s", now := 100,
    decode := fun t =>
      if t = "tok1" then some aliceToken
      else if t = "tok2" then some bobToken
      else none,
    handlers := fun _ _ => Except.ok (Json.str "r"),
    cacheGet := fun _ => Except.ok none,
    cacheSet := fun _ _ _ => Except.ok () }

/-- `baseEnv` with a cache whose reads fail (store unreachable). -/
def getFailEnv : Env :=
  { baseEnv with cacheGet := fun _ => Except.error () }

/-- `baseEnv` with a cache whose writes fail (store unreachable on set). -/
def setFailEnv : Env :=
  { baseEnv with cacheSet := fun _ _ _ => Except.error () }

/-- `baseEnv` with every cache read returning the stored empty string. -/
def emptyHitEnv : Env :=
  { baseEnv with cacheGet := fun _ => Except.ok (some "") }

/-- `baseEnv` with every cache read returning the stored string
`"cached"` (with JSON quotes). -/
def hitEnv : Env :=
  { baseEnv with cacheGet := fun _ => Except.ok (some "\"cached\"") }

/-- `baseEnv` with every cache read returning the stored serialization
of the JSON string `"r"` (what `baseEnv`'s handlers produce). -/
def storedREnv : Env :=
  { baseEnv with cacheGet := fun _ => Except.ok (some "\"r\"") }

/-- Route `GET /a/:x`, operation `opA`, no auth, no cache. -/
def capRoute : RouteDef :=
  { requestMethod := "get", fullPath := "/a/:x", methodName := "opA",
    authParams := none, cached := false, cacheTtl := 0 }

/-- Route `GET /a/b`, operation `opB`, no auth, no cache. -/
def litRoute : RouteDef :=
  { requestMethod := "get", fullPath := "/a/b", methodName := "opB",
    authParams := none, cached := false, cacheTtl := 0 }

/-- Route `POST /u` whose declared bindings are `[WholeBody, Auth("sub")]`:
the only binding metadata the dispatcher reads is the auth entry at
parameter index 1 with claim name `sub`. -/
def bodySubRoute : RouteDef :=
  { requestMethod := "post", fullPath := "/u", methodName := "op",
    authParams := some [(1, "sub")], cached := false, cacheTtl := 0 }

/-- Cacheable route `GET /report` with TTL 60, no auth. -/
def reportRoute : RouteDef :=
  { requestMethod := "get", fullPath := "/report", methodName := "rep",
    authParams := none, cached := true, cacheTtl := 60 }

/-- Cacheable auth-bound route `GET /report/:id` with TTL 60. -/
def authReportRoute : RouteDef :=
  { requestMethod := "get", fullPath := "/report/:id", methodName := "rep",
    authParams := some [(0, "__allAuthParams")], cached := true, cacheTtl := 60 }

/-- Request `GET /a/b` with no headers and no body. -/
def reqAB : Request :=
  { method := "GET", path := "/a/b", headers := [], query := [],
    bodyParse := Except.ok (Json.obj []) }

/-- Request `POST /u` with a bearer token and a JSON body. -/
def reqU : Request :=
  { method := "POST", path := "/u",
    headers := [("authorization", "Bearer tok1"), ("content-type", "application/json")],
    query := [], bodyParse := Except.ok (Json.obj [("a", Json.str "b")]) }

/-- Request `POST /u` with a JSON content type but a body that is not
valid JSON, and no `Authorization` header. -/
def reqBadBody : Request :=
  { method := "POST", path := "/u",
    headers := [("content-type", "application/json")],
    query := [], bodyParse := Except.error () }

/-- Request `POST /u` with a valid JSON body and no `Authorization`
header. -/
def reqUNoAuth : Request :=
  { method := "POST", path := "/u",
    headers := [("content-type", "application/json")],
    query := [], bodyParse := Except.ok (Json.obj []) }

/-- Request `GET /report` with no headers. -/
def reqReport : Request :=
  { method := "GET", path := "/report", headers := [], query := [],
    bodyParse := Except.ok (Json.obj []) }

/-- Request `GET /report/7` carrying alice's bearer token. -/
def reqReport1 : Request :=
  { method := "GET", path := "/report/7",
    headers := [("authorization", "Bearer tok1")], query := [],
    bodyParse := Except.ok (Json.obj []) }

/-- Request `GET /report/7` carrying bob's bearer token and an extra
header. -/
def reqReport2 : Request :=
  { method := "GET", path := "/report/7",
    headers := [("authorization", "Bearer tok2"), ("x-extra", "yes")], query := [],
    bodyParse := Except.ok (Json.obj []) }


theorem matchSegsAux_isSome :
    ∀ (rs us : List String) (acc : List (String × String)),
      (matchSegsAux rs us acc).isSome = true ↔ matchConds rs us := by
  intro rs
  induction rs with
  | nil =>
    intro us acc
    cases us with
    | nil =>
      simp [matchSegsAux, matchConds]
    | cons u us =>
      simp [matchSegsAux, matchConds]
  | cons r rs ih =>
    intro us acc
    cases us with
    | nil =>
      simp [matchSegsAux, matchConds]
    | cons u us =>
      by_cases hc : segStartsWithColon r = true
      · rw [matchSegsAux, if_pos hc]
        rw [ih]
        constructor
        · rintro ⟨hlen, hlit⟩
          refine ⟨by simpa using hlen, ?_⟩
          intro i hi hcol
          cases i with
          | zero => simp at hcol; simp [hcol] at hc
          | succ j =>
            simp only [List.getD_cons_succ]
            exact hlit j (by simpa using hi) (by simpa using hcol)
        · rintro ⟨hlen, hlit⟩
          refine ⟨by simpa using hlen, ?_⟩
          intro i hi hcol
          have := hlit (i + 1) (by simpa using hi) (by simpa using hcol)
          simpa using this
      · rw [matchSegsAux, if_neg hc]
        by_cases he : r == u
        · rw [if_pos he, ih]
          constructor
          · rintro ⟨hlen, hlit⟩
            refine ⟨by simpa using hlen, ?_⟩
            intro i hi hcol
            cases i with
            | zero =>
              simpa using (eq_of_beq he)
            | succ j =>
              simp only [List.getD_cons_succ]
              exact hlit j (by simpa using hi) (by simpa using hcol)
          · rintro ⟨hlen, hlit⟩
            refine ⟨by simpa using hlen, ?_⟩
            intro i hi hcol
            have := hlit (i + 1) (by simpa using hi) (by simpa using hcol)
            simpa using this
        · rw [if_neg he]
          simp only [Option.isSome_none, Bool.false_eq_true, false_iff]
          rintro ⟨hlen, hlit⟩
          have := hlit 0 (by simp) (by simpa using hc)
          simp only [List.getD_cons_zero] at this
          exact he (by simp [this])

theorem matchSegsAux_eq_some :
    ∀ (rs us : List String) (acc m : List (String × String)),
      matchSegsAux rs us acc = some m →
      m = (capturePairs rs us).foldl (fun acc kv => recordSet acc kv.1 kv.2) acc := by
  intro rs
  induction rs with
  | nil =>
    intro us acc m h
    cases us with
    | nil => simp [matchSegsAux] at h; simp [capturePairs, h]
    | cons u us => simp [matchSegsAux] at h
  | cons r rs ih =>
    intro us acc m h
    cases us with
    | nil => simp [matchSegsAux] at h
    | cons u us =>
      by_cases hc : segStartsWithColon r = true
      · rw [matchSegsAux, if_pos hc] at h
        have := ih us _ m h
        simpa [capturePairs, hc] using this
      · rw [matchSegsAux, if_neg hc] at h
        by_cases he : r == u
        · rw [if_pos he] at h
          have := ih us _ m h
          simpa [capturePairs, hc] using this
        · rw [if_neg he] at h
          exact absurd h (by simp)

theorem toDigitsCore_len_le (b : Nat) :
    ∀ (fuel n : Nat) (ds : List Char), ds.length ≤ (Nat.toDigitsCore b fuel n ds).length := by
  intro fuel
  induction fuel with
  | zero => intro n ds; simp [Nat.toDigitsCore]
  | succ f ih =>
    intro n ds
    rw [Nat.toDigitsCore]
    by_cases h : n / b = 0
    · simp [h]
    · rw [if_neg h]
      calc ds.length ≤ (Nat.digitChar (n % b) :: ds).length := by simp
        _ ≤ _ := ih _ _

theorem nat_repr_len_pos (n : Nat) : 0 < (Nat.repr n).length := by
  show 0 < ((Nat.toDigits 10 n).asString).length
  have h : 0 < (Nat.toDigits 10 n).length := by
    rw [Nat.toDigits, Nat.toDigitsCore]
    by_cases h : n / 10 = 0
    · simp [h]
    · rw [if_neg h]
      calc 0 < (Nat.digitChar (n % 10) :: []).length := by simp
        _ ≤ _ := toDigitsCore_len_le _ _ _ _
  simpa [List.asString, String.length] using h

theorem int_repr_len_pos (n : Int) : 0 < (Int.repr n).length := by
  cases n with
  | ofNat m => exact nat_repr_len_pos m
  | negSucc m =>
    rw [Int.repr, String.length_append]
    have := nat_repr_len_pos m.succ
    omega

/-- No serialized JSON value is the empty string; the stored value of a
cache write is therefore always truthy on read-back. -/
theorem Json.render_ne_empty (j : Json) : j.render ≠ "" := by
  have hpos : 0 < j.render.length := by
    cases j with
    | null => simp [Json.render, String.length]
    | bool b => cases b <;> simp [Json.render, String.length]
    | num n => exact int_repr_len_pos n
    | str s =>
      simp only [Json.render, String.length_append]
      have h1 : ("\"" : String).length = 1 := rfl
      omega
    | arr xs =>
      simp only [Json.render, String.length_append]
      have h1 : ("[" : String).length = 1 := rfl
      have h2 : ("]" : String).length = 1 := rfl
      omega
    | obj fs =>
      simp only [Json.render, String.length_append]
      have h1 : ("\x7b" : String).length = 1 := rfl
      have h2 : ("\x7d" : String).length = 1 := rfl
      omega
  intro he
  rw [he] at hpos
  simp [String.length] at hpos

theorem extractParams_ok_params {req : Request} {path : String} {p : ExtractedParams}
    (h : extractParams req path = Except.ok p) : p.params = matchRoute path req.path := by
  unfold extractParams at h
  by_cases hc : (lowerStr req.method != "get" &&
      (getHeader req "content-type" == some "application/json")) = true
  · rw [if_pos hc] at h
    cases hb : req.bodyParse with
    | error e => rw [hb] at h; cases h
    | ok b =>
      rw [hb] at h
      rw [Except.ok.injEq] at h
      rw [← h]
  · rw [if_neg hc] at h
    rw [Except.ok.injEq] at h
    rw [← h]

theorem segsEvery_isSome :
    ∀ (rs us : List String) (acc : List (String × String)),
      segsEvery rs us = true → (matchSegsAux rs us acc).isSome = true := by
  intro rs
  induction rs with
  | nil =>
    intro us acc h
    cases us with
    | nil => simp [matchSegsAux]
    | cons u us => simp [segsEvery] at h
  | cons r rs ih =>
    intro us acc h
    cases us with
    | nil => simp [segsEvery] at h
    | cons u us =>
      rw [segsEvery, Bool.and_eq_true] at h
      obtain ⟨h1, h2⟩ := h
      rw [matchSegsAux]
      by_cases hc : segStartsWithColon r = true
      · rw [if_pos hc]; exact ih us _ h2
      · rw [if_neg hc]
        rw [Bool.or_eq_true] at h1
        rcases h1 with h1 | h1
        · exact absurd h1 hc
        · rw [if_pos h1]; exact ih us _ h2

theorem routeMatches_isSome {route : RouteDef} {req : Request}
    (h : routeMatches route req = true) :
    (matchRoute route.fullPath req.path).isSome = true := by
  unfold routeMatches at h
  rw [Bool.and_eq_true, Bool.and_eq_true] at h
  obtain ⟨⟨_, hlen⟩, hev⟩ := h
  have hlen' : (splitOn1 '/' route.fullPath).length = (splitOn1 '/' req.path).length := by
    simpa using hlen
  simp only [matchRoute, hlen', bne_self_eq_false, Bool.false_eq_true, if_false]
  exact segsEvery_isSome _ _ _ hev

theorem invokeAndRespond_ne_noMatch (env : Env) (route : RouteDef) (p : ExtractedParams) :
    invokeAndRespond env route p ≠ RouteStep.noMatch := by
  unfold invokeAndRespond
  dsimp only
  split <;> simp

theorem cacheGate_ne_noMatch (env : Env) (route : RouteDef) (p : ExtractedParams)
    (pp : List (String × String)) : cacheGate env route p pp ≠ RouteStep.noMatch := by
  unfold cacheGate invokeAndRespond
  dsimp only
  repeat' split
  all_goals simp

theorem handleRoute_eq_noMatch {env : Env} {route : RouteDef} {req : Request}
    (h : routeMatches route req = false) : handleRoute env route req = RouteStep.noMatch := by
  unfold handleRoute
  rw [h]
  simp

theorem handleRoute_ne_noMatch {env : Env} {route : RouteDef} {req : Request}
    (h : routeMatches route req = true) : handleRoute env route req ≠ RouteStep.noMatch := by
  unfold handleRoute
  rw [if_pos h]
  split
  · simp
  · rename_i p hx
    have hp : p.params = matchRoute route.fullPath req.path := extractParams_ok_params hx
    obtain ⟨pp0, hpp⟩ := Option.isSome_iff_exists.mp (routeMatches_isSome h)
    rw [hp, hpp]
    simp only []
    split <;> simp [cacheGate_ne_noMatch]

theorem handleRoute_eq {env : Env} {route : RouteDef} {req : Request} {p : ExtractedParams}
    {pp0 : List (String × String)}
    (hm : routeMatches route req = true)
    (hx : extractParams req route.fullPath = Except.ok p)
    (hpp : matchRoute route.fullPath req.path = some pp0) :
    handleRoute env route req =
      (match authenticate env route req with
       | AuthOutcome.internalError => RouteStep.done internalErrorEvents
       | AuthOutcome.unauthorized => RouteStep.done unauthorizedEvents
       | AuthOutcome.ok claims =>
         cacheGate env route
           { p with
             params := some (reassignCaptures (splitOn1 '/' route.fullPath)
               (splitOn1 '/' req.path) pp0),
             numeric := bindAuthParams (route.authParams.getD []) claims p.numeric }
           (reassignCaptures (splitOn1 '/' route.fullPath) (splitOn1 '/' req.path) pp0)
       | AuthOutcome.skip =>
         cacheGate env route
           { p with
             params := some (reassignCaptures (splitOn1 '/' route.fullPath)
               (splitOn1 '/' req.path) pp0) }
           (reassignCaptures (splitOn1 '/' route.fullPath) (splitOn1 '/' req.path) pp0)) := by
  unfold handleRoute
  rw [if_pos hm, hx]
  dsimp only
  have hp : p.params = matchRoute route.fullPath req.path := extractParams_ok_params hx
  rw [hp, hpp]

theorem dispatch_first {env : Env} {req : Request} :
    ∀ {routes : List RouteDef} {r : RouteDef}, firstMatch routes req = some r →
      handleRequest env routes req = stepEvents (handleRoute env r req) := by
  intro routes
  induction routes with
  | nil => intro r h; simp [firstMatch, List.find?] at h
  | cons r' rs ih =>
    intro r h
    unfold firstMatch at h
    rw [List.find?_cons] at h
    by_cases hm : routeMatches r' req = true
    · rw [hm] at h
      dsimp only at h
      rw [Option.some.injEq] at h
      subst h
      unfold handleRequest dispatchRoutes
      cases hh : handleRoute env r' req with
      | noMatch => exact absurd hh (handleRoute_ne_noMatch hm)
      | done t => simp [stepEvents, hh]
      | threw t => simp [stepEvents, hh]
    · have hm' : routeMatches r' req = false := by
        revert hm; cases routeMatches r' req <;> simp
      rw [hm'] at h
      dsimp only at h
      unfold handleRequest dispatchRoutes
      rw [handleRoute_eq_noMatch hm']
      exact ih h

theorem endCount_append (a b : List Event) : endCount (a ++ b) = endCount a + endCount b := by
  induction a with
  | nil => simp [endCount]
  | cons e t ih => simp [endCount, ih]; omega

theorem stepGood_cacheGate (env : Env) (route : RouteDef) (p : ExtractedParams)
    (pp : List (String × String)) : stepGood (cacheGate env route p pp) := by
  unfold cacheGate invokeAndRespond
  dsimp only
  repeat' split
  all_goals refine ⟨by simp [endCount, isEnd], ?_⟩
  all_goals intro e he
  all_goals fin_cases he <;> trivial

theorem stepGood_handleRoute (env : Env) (route : RouteDef) (req : Request) :
    stepGood (handleRoute env route req) := by
  unfold handleRoute
  dsimp only
  repeat' split
  all_goals first
    | trivial
    | exact stepGood_cacheGate _ _ _ _
    | exact ⟨rfl, by intro e he; simp at he⟩
    | · refine ⟨by simp [endCount, isEnd, internalErrorEvents, unauthorizedEvents, errorBody], ?_⟩
        intro e he
        fin_cases he <;> trivial

theorem invoke_mem_cacheGate {env : Env} {route : RouteDef} {p : ExtractedParams}
    {pp : List (String × String)} {name : String} {args : List Json}
    (h : Event.invoke name args ∈ stepEvents (cacheGate env route p pp)) :
    name = route.methodName := by
  unfold cacheGate invokeAndRespond at h
  dsimp only at h
  repeat' split at h
  all_goals simp [stepEvents, internalErrorEvents] at h
  all_goals tauto

theorem invoke_mem_handleRoute {env : Env} {route : RouteDef} {req : Request}
    {name : String} {args : List Json}
    (h : Event.invoke name args ∈ stepEvents (handleRoute env route req)) :
    name = route.methodName := by
  unfold handleRoute at h
  dsimp only at h
  repeat' split at h
  all_goals first
    | exact invoke_mem_cacheGate h
    | simp [stepEvents, internalErrorEvents, unauthorizedEvents] at h

theorem invoke_mem_dispatch {env : Env} {req : Request} :
    ∀ {routes : List RouteDef} {name : String} {args : List Json},
      Event.invoke name args ∈ handleRequest env routes req →
      ∃ r, firstMatch routes req = some r ∧ name = r.methodName := by
  intro routes
  induction routes with
  | nil =>
    intro name args h
    simp [handleRequest, dispatchRoutes, notFoundEvents] at h
  | cons r' rs ih =>
    intro name args h
    by_cases hm : routeMatches r' req = true
    · have hf : firstMatch (r' :: rs) req = some r' := by
        unfold firstMatch
        rw [List.find?_cons, hm]
      refine ⟨r', hf, ?_⟩
      have hd : handleRequest env (r' :: rs) req = stepEvents (handleRoute env r' req) :=
        dispatch_first hf
      rw [hd] at h
      exact invoke_mem_handleRoute h
    · have hm' : routeMatches r' req = false := by
        revert hm; cases routeMatches r' req <;> simp
      have hskip : handleRequest env (r' :: rs) req = handleRequest env rs req := by
        conv_lhs => rw [handleRequest, dispatchRoutes]
        rw [handleRoute_eq_noMatch hm']
        rfl
      rw [hskip] at h
      obtain ⟨r, hr, hn⟩ := ih h
      refine ⟨r, ?_, hn⟩
      unfold firstMatch at hr ⊢
      rw [List.find?_cons, hm']
      exact hr

theorem cacheSet_mem_cacheGate {env : Env} {route : RouteDef} {p : ExtractedParams}
    {pp : List (String × String)} {k v : String} {ttl : Nat}
    (h : Event.cacheSet k v ttl ∈ stepEvents (cacheGate env route p pp)) :
    k = cacheKeyOf route.fullPath pp ∧ ttl = route.cacheTtl ∧ ∃ j, v = Json.render j := by
  unfold cacheGate invokeAndRespond at h
  dsimp only at h
  repeat' split at h
  all_goals simp [stepEvents, internalErrorEvents] at h
  all_goals obtain ⟨hk, hv, ht⟩ := h
  all_goals exact ⟨hk, ht, _, hv⟩

theorem cacheSet_mem_handleRoute {env : Env} {route : RouteDef} {req : Request}
    {k v : String} {ttl : Nat}
    (h : Event.cacheSet k v ttl ∈ stepEvents (handleRoute env route req)) :
    k = requestCacheKey route req ∧ ttl = route.cacheTtl ∧ ∃ j, v = Json.render j := by
  unfold handleRoute at h
  dsimp only at h
  split at h
  · split at h
    · simp [stepEvents, internalErrorEvents] at h
    · rename_i p hx
      split at h
      · simp [stepEvents] at h
      · rename_i pp0 hp
        have hmr : matchRoute route.fullPath req.path = some pp0 := by
          rw [← extractParams_ok_params hx]
          exact hp
        have hkey : cacheKeyOf route.fullPath
            (reassignCaptures (splitOn1 '/' route.fullPath) (splitOn1 '/' req.path) pp0) =
            requestCacheKey route req := by
          unfold requestCacheKey
          rw [hmr]
          rfl
        split at h
        all_goals first
          | (rw [← hkey]; exact cacheSet_mem_cacheGate h)
          | simp [stepEvents, unauthorizedEvents, internalErrorEvents] at h
  · simp [stepEvents] at h

theorem cacheSet_mem_dispatch {env : Env} {req : Request} {routes : List RouteDef}
    {r : RouteDef} {k v : String} {ttl : Nat}
    (hf : firstMatch routes req = some r)
    (h : Event.cacheSet k v ttl ∈ handleRequest env routes req) :
    k = requestCacheKey r req ∧ ttl = r.cacheTtl ∧ ∃ j, v = Json.render j := by
  rw [dispatch_first hf] at h
  exact cacheSet_mem_handleRoute h

theorem cacheGate_get_error {env : Env} {route : RouteDef} (p : ExtractedParams)
    (pp : List (String × String)) (hc : route.cached = true)
    (hg : env.cacheGet (cacheKeyOf route.fullPath pp) = Except.error ()) :
    cacheGate env route p pp = RouteStep.threw [Event.cacheGet (cacheKeyOf route.fullPath pp)] := by
  unfold cacheGate
  rw [if_pos hc, hg]

theorem cacheGate_hit {env : Env} {route : RouteDef} (p : ExtractedParams)
    (pp : List (String × String)) {s : String} (hc : route.cached = true)
    (hg : env.cacheGet (cacheKeyOf route.fullPath pp) = Except.ok (some s)) (hs : s ≠ "") :
    cacheGate env route p pp =
      RouteStep.done (hitEvents (cacheKeyOf route.fullPath pp) s route.cacheTtl) := by
  unfold cacheGate
  rw [if_pos hc, hg]
  dsimp only
  rw [if_pos (by simp [truthyOpt, hs])]
  rfl

theorem cacheGate_miss_set_error {env : Env} {route : RouteDef} (p : ExtractedParams)
    (pp : List (String × String)) {r : Option String} {result : Json}
    (hc : route.cached = true)
    (hg : env.cacheGet (cacheKeyOf route.fullPath pp) = Except.ok r)
    (ht : truthyOpt r = false)
    (hh : env.handlers route.methodName (objectValues p) = Except.ok result)
    (hs : env.cacheSet (cacheKeyOf route.fullPath pp) (Json.render result) route.cacheTtl =
      Except.error ()) :
    cacheGate env route p pp =
      RouteStep.threw
        [Event.cacheGet (cacheKeyOf route.fullPath pp),
         Event.invoke route.methodName (objectValues p),
         Event.cacheSet (cacheKeyOf route.fullPath pp) (Json.render result) route.cacheTtl] := by
  unfold cacheGate
  rw [if_pos hc, hg]
  dsimp only
  rw [if_neg (by simp [ht]), hh]
  dsimp only
  rw [hs]

theorem cacheGate_miss_set_ok {env : Env} {route : RouteDef} (p : ExtractedParams)
    (pp : List (String × String)) {r : Option String} {result : Json}
    (hc : route.cached = true)
    (hg : env.cacheGet (cacheKeyOf route.fullPath pp) = Except.ok r)
    (ht : truthyOpt r = false)
    (hh : env.handlers route.methodName (objectValues p) = Except.ok result)
    (hs : env.cacheSet (cacheKeyOf route.fullPath pp) (Json.render result) route.cacheTtl =
      Except.ok ()) :
    cacheGate env route p pp =
      RouteStep.done
        [Event.cacheGet (cacheKeyOf route.fullPath pp),
         Event.invoke route.methodName (objectValues p),
         Event.cacheSet (cacheKeyOf route.fullPath pp) (Json.render result) route.cacheTtl,
         Event.setHeader "Content-Type" "application/json",
         Event.endResponse 200 (Json.render result)] := by
  unfold cacheGate
  rw [if_pos hc, hg]
  dsimp only
  rw [if_neg (by simp [ht]), hh]
  dsimp only
  rw [hs]

theorem firstMatch_matches {routes : List RouteDef} {req : Request} {r : RouteDef}
    (hf : firstMatch routes req = some r) : routeMatches r req = true := by
  unfold firstMatch at hf
  have h2 := List.find?_some hf
  simpa using h2

/-- C3: the path matcher returns a match if and only if the pattern and
the path, split on `/`, have equal segment counts and every literal
pattern segment equals the corresponding path segment by exact string
comparison; on success the returned record is exactly the result of
recording each capture name's path segment, in segment order. -/
theorem c3_path_matcher (route url : String) :
    ((matchRoute route url).isSome = true ↔
      matchConds (splitOn1 '/' route) (splitOn1 '/' url)) ∧
    ∀ m, matchRoute route url = some m →
      m = buildParams (capturePairs (splitOn1 '/' route) (splitOn1 '/' url)) := by
  constructor
  · unfold matchRoute
    by_cases hl : (splitOn1 '/' route).length = (splitOn1 '/' url).length
    · simp only [hl, bne_self_eq_false, Bool.false_eq_true, if_false]
      exact matchSegsAux_isSome _ _ _
    · have hb : ((splitOn1 '/' route).length != (splitOn1 '/' url).length) = true := by
        simpa using hl
      simp only [hb, if_true]
      constructor
      · intro h
        simp at h
      · rintro ⟨hlen, _⟩
        exact absurd hlen hl
  · intro m hm
    unfold matchRoute at hm
    by_cases hl : (splitOn1 '/' route).length = (splitOn1 '/' url).length
    · simp only [hl, bne_self_eq_false, Bool.false_eq_true, if_false] at hm
      exact matchSegsAux_eq_some _ _ _ _ hm
    · have hb : ((splitOn1 '/' route).length != (splitOn1 '/' url).length) = true := by
        simpa using hl
      simp only [hb, if_true] at hm
      cases hm

theorem c3_path_matcher_witness :
    (matchRoute "/users/:id" "/users/42").isSome = true ∧
    [("id", "42")] =
      buildParams (capturePairs (splitOn1 '/' "/users/:id") (splitOn1 '/' "/users/42")) :=
  ⟨(c3_path_matcher "/users/:id" "/users/42").1.mpr (by constructor <;> decide),
   (c3_path_matcher "/users/:id" "/users/42").2 [("id", "42")] rfl⟩

/-- C4: every handler invocation performed by the dispatcher belongs to
the first registered route whose method and path pattern match; with the
table `GET /a/:x` then `GET /a/b`, the request `GET /a/b` runs `opA`
with capture `x = "b"` and never touches `opB`. -/
theorem c4_first_match :
    (∀ (env : Env) (routes : List RouteDef) (req : Request) (name : String) (args : List Json),
      Event.invoke name args ∈ handleRequest env routes req →
      ∃ r, firstMatch routes req = some r ∧ name = r.methodName) ∧
    handleRequest baseEnv [capRoute, litRoute] reqAB =
      [Event.invoke "opA" [Json.obj [], strObj [("x", "b")], strObj [], strObj []],
       Event.setHeader "Content-Type" "application/json",
       Event.endResponse 200 (Json.render (Json.str "r"))] := by
  constructor
  · intro env routes req name args h
    exact invoke_mem_dispatch h
  · rfl

theorem c4_first_match_witness :
    ∃ r, firstMatch [capRoute, litRoute] reqAB = some r ∧ "opA" = r.methodName :=
  c4_first_match.1 baseEnv [capRoute, litRoute] reqAB "opA"
    [Json.obj [], strObj [("x", "b")], strObj [], strObj []]
    (List.mem_cons_self _ _)

/-- C8: every request is answered by exactly one response end, and every
failure-status end (401, 404, 500) carries the canonical one-field JSON
error body; thrown exceptions are absorbed by the dispatcher's catch. -/
theorem c8_single_response (env : Env) (routes : List RouteDef) (req : Request) :
    endCount (handleRequest env routes req) = 1 ∧
      ∀ e ∈ handleRequest env routes req, failureEndOk e := by
  induction routes with
  | nil =>
    constructor
    · rfl
    · intro e he
      fin_cases he <;> trivial
  | cons r rs ih =>
    unfold handleRequest dispatchRoutes
    cases hh : handleRoute env r req with
    | noMatch => exact ih
    | done t =>
      have hg := stepGood_handleRoute env r req
      rw [hh] at hg
      exact hg
    | threw t =>
      have hg := stepGood_handleRoute env r req
      rw [hh] at hg
      obtain ⟨h0, hfo⟩ := hg
      constructor
      · rw [endCount_append, h0]
        rfl
      · intro e he
        rw [List.mem_append] at he
        rcases he with he | he
        · exact hfo e he
        · fin_cases he <;> trivial

theorem c8_single_response_witness :
    endCount (handleRequest baseEnv [] reqAB) = 1 ∧
      failureEndOk (Event.endResponse 404 (errorBody "Not found")) :=
  ⟨(c8_single_response baseEnv [] reqAB).1,
   (c8_single_response baseEnv [] reqAB).2 (Event.endResponse 404 (errorBody "Not found"))
     (by exact List.mem_cons_of_mem _ (List.mem_cons_self _ _))⟩

/-- C10: a non-GET request whose `Content-Type` is exactly
`application/json` but whose body fails to parse is answered 500 with
the internal-error JSON body by the first matching route, whatever the
route's auth metadata and whatever `Authorization` header the request
carries — body parsing runs before the auth check. -/
theorem c10_body_parse_500 (env : Env) (routes : List RouteDef) (req : Request) (r : RouteDef)
    (hf : firstMatch routes req = some r)
    (hng : lowerStr req.method ≠ "get")
    (hct : getHeader req "content-type" = some "application/json")
    (hbp : req.bodyParse = Except.error ()) :
    handleRequest env routes req = internalErrorEvents := by
  rw [dispatch_first hf]
  have hm : routeMatches r req = true := firstMatch_matches hf
  have hx : extractParams req r.fullPath = Except.error () := by
    unfold extractParams
    rw [if_pos (by simp [hng, hct]), hbp]
  unfold handleRoute
  rw [if_pos hm, hx]
  rfl

theorem c10_body_parse_500_witness :
    handleRequest baseEnv [bodySubRoute] reqBadBody = internalErrorEvents :=
  c10_body_parse_500 baseEnv [bodySubRoute] reqBadBody bodySubRoute rfl (by decide) rfl rfl

/-- C7: on an auth-bound route, a bearer token that decodes and is
signed with the configured secret authenticates successfully and yields
its claims even when its expiration time lies strictly in the past —
verification is performed with expiration ignored, so an expired but
correctly signed token never produces the 401 outcome. -/
theorem c7_expiry_ignored (env : Env) (r : RouteDef) (req : Request) (hdr : String)
    (tok : JwtToken) (secret : String) (e : Int)
    (ha : r.authParams.isSome = true)
    (hh : getHeader req "authorization" = some hdr)
    (hb : hasBearer hdr = true)
    (hsec : env.jwtSecret = some secret)
    (hdec : env.decode (tokenOf hdr) = some tok)
    (hsig : tok.signedWith = secret)
    (_hexp : tok.exp = some e) (_hlt : e < env.now) :
    authenticate env r req = AuthOutcome.ok tok.claims := by
  unfold authenticate
  obtain ⟨aps, haps⟩ := Option.isSome_iff_exists.mp ha
  rw [haps]
  dsimp only
  rw [hh]
  dsimp only
  rw [if_pos hb, hsec]
  dsimp only
  unfold jwtVerify
  rw [hdec]
  dsimp only
  rw [if_pos hsig]
  rfl

theorem c7_expiry_ignored_witness :
    authenticate baseEnv bodySubRoute reqU = AuthOutcome.ok aliceToken.claims :=
  c7_expiry_ignored baseEnv bodySubRoute reqU "Bearer tok1" aliceToken "s" 5
    rfl rfl rfl rfl rfl rfl rfl (by decide)

theorem dispatch_auth_unauthorized {env : Env} {routes : List RouteDef} {req : Request}
    {r : RouteDef} {p : ExtractedParams}
    (hf : firstMatch routes req = some r)
    (hx : extractParams req r.fullPath = Except.ok p)
    (hauth : authenticate env r req = AuthOutcome.unauthorized) :
    handleRequest env routes req = unauthorizedEvents := by
  have hm : routeMatches r req = true := firstMatch_matches hf
  obtain ⟨pp0, hpp⟩ := Option.isSome_iff_exists.mp (routeMatches_isSome hm)
  rw [dispatch_first hf, handleRoute_eq hm hx hpp, hauth]
  rfl

theorem dispatch_auth_internal {env : Env} {routes : List RouteDef} {req : Request}
    {r : RouteDef} {p : ExtractedParams}
    (hf : firstMatch routes req = some r)
    (hx : extractParams req r.fullPath = Except.ok p)
    (hauth : authenticate env r req = AuthOutcome.internalError) :
    handleRequest env routes req = internalErrorEvents := by
  have hm : routeMatches r req = true := firstMatch_matches hf
  obtain ⟨pp0, hpp⟩ := Option.isSome_iff_exists.mp (routeMatches_isSome hm)
  rw [dispatch_first hf, handleRoute_eq hm hx hpp, hauth]
  rfl

theorem requestCacheKey_eq {r : RouteDef} {req : Request} {pp0 : List (String × String)}
    (hpp : matchRoute r.fullPath req.path = some pp0) :
    cacheKeyOf r.fullPath
      (reassignCaptures (splitOn1 '/' r.fullPath) (splitOn1 '/' req.path) pp0) =
      requestCacheKey r req := by
  unfold requestCacheKey
  rw [hpp]
  rfl

theorem dispatch_cache_hit {env : Env} {routes : List RouteDef} {req : Request}
    {r : RouteDef} {p : ExtractedParams} {s : String}
    (hf : firstMatch routes req = some r) (hc : r.cached = true)
    (hx : extractParams req r.fullPath = Except.ok p)
    (hauth : authenticate env r req = AuthOutcome.skip ∨
      ∃ claims, authenticate env r req = AuthOutcome.ok claims)
    (hg : env.cacheGet (requestCacheKey r req) = Except.ok (some s)) (hs : s ≠ "") :
    handleRequest env routes req = hitEvents (requestCacheKey r req) s r.cacheTtl := by
  have hm : routeMatches r req = true := firstMatch_matches hf
  obtain ⟨pp0, hpp⟩ := Option.isSome_iff_exists.mp (routeMatches_isSome hm)
  have hkey := requestCacheKey_eq hpp
  rw [dispatch_first hf, handleRoute_eq hm hx hpp]
  rcases hauth with hauth | ⟨claims, hauth⟩ <;> rw [hauth] <;> dsimp only <;>
    rw [cacheGate_hit _ _ hc (by rw [hkey]; exact hg) hs, hkey] <;> rfl

theorem dispatch_cache_get_error {env : Env} {routes : List RouteDef} {req : Request}
    {r : RouteDef} {p : ExtractedParams}
    (hf : firstMatch routes req = some r) (hc : r.cached = true)
    (hx : extractParams req r.fullPath = Except.ok p)
    (hauth : authenticate env r req = AuthOutcome.skip ∨
      ∃ claims, authenticate env r req = AuthOutcome.ok claims)
    (hg : env.cacheGet (requestCacheKey r req) = Except.error ()) :
    handleRequest env routes req =
      Event.cacheGet (requestCacheKey r req) :: internalErrorEvents := by
  have hm : routeMatches r req = true := firstMatch_matches hf
  obtain ⟨pp0, hpp⟩ := Option.isSome_iff_exists.mp (routeMatches_isSome hm)
  have hkey := requestCacheKey_eq hpp
  rw [dispatch_first hf, handleRoute_eq hm hx hpp]
  rcases hauth with hauth | ⟨claims, hauth⟩ <;> rw [hauth] <;> dsimp only <;>
    rw [cacheGate_get_error _ _ hc (by rw [hkey]; exact hg), hkey] <;> rfl

theorem dispatch_cache_set_error {env : Env} {routes : List RouteDef} {req : Request}
    {r : RouteDef} {p : ExtractedParams} {result : Json}
    (hf : firstMatch routes req = some r) (hc : r.cached = true)
    (hx : extractParams req r.fullPath = Except.ok p)
    (hauth : authenticate env r req = AuthOutcome.skip ∨
      ∃ claims, authenticate env r req = AuthOutcome.ok claims)
    (hhandler : ∀ args, env.handlers r.methodName args = Except.ok result)
    (hg : env.cacheGet (requestCacheKey r req) = Except.ok none)
    (hset : env.cacheSet (requestCacheKey r req) (Json.render result) r.cacheTtl =
      Except.error ()) :
    ∃ args,
      handleRequest env routes req =
        [Event.cacheGet (requestCacheKey r req),
         Event.invoke r.methodName args,
         Event.cacheSet (requestCacheKey r req) (Json.render result) r.cacheTtl] ++
          internalErrorEvents := by
  have hm : routeMatches r req = true := firstMatch_matches hf
  obtain ⟨pp0, hpp⟩ := Option.isSome_iff_exists.mp (routeMatches_isSome hm)
  have hkey := requestCacheKey_eq hpp
  rw [dispatch_first hf, handleRoute_eq hm hx hpp]
  rcases hauth with hauth | ⟨claims, hauth⟩ <;> rw [hauth] <;> dsimp only <;>
    rw [cacheGate_miss_set_error _ _ hc (by rw [hkey]; exact hg)
          (show truthyOpt none = false from rfl) (hhandler _)
          (by rw [hkey]; exact hset), hkey] <;>
    exact ⟨_, rfl⟩

/-- C5 (counterexample): on the auth-bound route `POST /u`, a request
with no `Authorization` header whose JSON body fails to parse is
answered 500, not 401 — body extraction runs before the auth check, so
the claim's "absent header implies 401" fails as stated. -/
theorem c5_counterexample :
    handleRequest baseEnv [bodySubRoute] reqBadBody =
      [Event.setHeader "Content-Type" "application/json",
       Event.endResponse 500 (errorBody "Internal Server Error")] ∧
    getHeader reqBadBody "authorization" = none ∧
    bodySubRoute.authParams.isSome = true :=
  ⟨rfl, rfl, rfl⟩

/-- C5 (amended): on a request dispatched to an auth-bound route whose
parameter extraction succeeds, a missing or non-Bearer `Authorization`
header yields exactly the 401 response, a missing signing secret yields
exactly the 500 response, and a failed verification yields exactly the
401 response — in each case the whole trace is the error response alone,
so the cache store is never read or written and the handler is never
invoked. -/
theorem c5_auth_gate (env : Env) (routes : List RouteDef) (req : Request) (r : RouteDef)
    {p : ExtractedParams}
    (hf : firstMatch routes req = some r)
    (ha : r.authParams.isSome = true)
    (hx : extractParams req r.fullPath = Except.ok p) :
    (getHeader req "authorization" = none →
      handleRequest env routes req = unauthorizedEvents) ∧
    (∀ hdr, getHeader req "authorization" = some hdr → hasBearer hdr = false →
      handleRequest env routes req = unauthorizedEvents) ∧
    (∀ hdr, getHeader req "authorization" = some hdr → hasBearer hdr = true →
      env.jwtSecret = none →
      handleRequest env routes req = internalErrorEvents) ∧
    (∀ hdr secret, getHeader req "authorization" = some hdr → hasBearer hdr = true →
      env.jwtSecret = some secret →
      jwtVerify env (tokenOf hdr) secret true = none →
      handleRequest env routes req = unauthorizedEvents) := by
  obtain ⟨aps, haps⟩ := Option.isSome_iff_exists.mp ha
  refine ⟨?_, ?_, ?_, ?_⟩
  · intro hh
    refine dispatch_auth_unauthorized hf hx ?_
    unfold authenticate
    rw [haps]
    dsimp only
    rw [hh]
  · intro hdr hh hb
    refine dispatch_auth_unauthorized hf hx ?_
    unfold authenticate
    rw [haps]
    dsimp only
    rw [hh]
    dsimp only
    rw [if_neg (by simp [hb])]
  · intro hdr hh hb hsec
    refine dispatch_auth_internal hf hx ?_
    unfold authenticate
    rw [haps]
    dsimp only
    rw [hh]
    dsimp only
    rw [if_pos hb, hsec]
  · intro hdr secret hh hb hsec hv
    refine dispatch_auth_unauthorized hf hx ?_
    unfold authenticate
    rw [haps]
    dsimp only
    rw [hh]
    dsimp only
    rw [if_pos hb, hsec]
    dsimp only
    rw [hv]

theorem c5_auth_gate_witness :
    handleRequest baseEnv [bodySubRoute] reqUNoAuth = unauthorizedEvents :=
  (c5_auth_gate baseEnv [bodySubRoute] reqUNoAuth bodySubRoute rfl rfl rfl).1 rfl

/-- C6 (counterexample): a stored empty string is a present cache value,
yet the dispatcher's truthiness test treats it as a miss — the handler
is invoked, no cache-hit marker is set, and the response body is the
handler's result rather than the stored value. -/
theorem c6_counterexample :
    handleRequest emptyHitEnv [reportRoute] reqReport =
      [Event.cacheGet (requestCacheKey reportRoute reqReport),
       Event.invoke "rep" [Json.obj [], strObj [], strObj [], strObj []],
       Event.cacheSet (requestCacheKey reportRoute reqReport) "\"r\"" 60,
       Event.setHeader "Content-Type" "application/json",
       Event.endResponse 200 "\"r\""] := rfl

/-- C6 (amended): on a request that reaches the cache gate of a
cacheable route (extraction succeeded and any auth check passed), if the
store holds a non-empty string under the request's cache key, the
response is exactly the stored string with the `X-Cache: HIT` marker and
a `Cache-Control` header carrying the route's TTL, and the handler is
not invoked (the trace holds no invoke event). -/
theorem c6_cache_hit (env : Env) (routes : List RouteDef) (req : Request) (r : RouteDef)
    {p : ExtractedParams} (s : String)
    (hf : firstMatch routes req = some r)
    (hc : r.cached = true)
    (hx : extractParams req r.fullPath = Except.ok p)
    (hauth : authenticate env r req = AuthOutcome.skip ∨
      ∃ claims, authenticate env r req = AuthOutcome.ok claims)
    (hg : env.cacheGet (requestCacheKey r req) = Except.ok (some s))
    (hs : s ≠ "") :
    handleRequest env routes req = hitEvents (requestCacheKey r req) s r.cacheTtl :=
  dispatch_cache_hit hf hc hx hauth hg hs

theorem c6_cache_hit_witness :
    handleRequest hitEnv [reportRoute] reqReport =
      hitEvents (requestCacheKey reportRoute reqReport) "\"cached\"" 60 :=
  c6_cache_hit hitEnv [reportRoute] reqReport reportRoute "\"cached\""
    rfl rfl rfl (Or.inl rfl) rfl (by decide)

/-- C2 (counterexample): a failing cache write does fail the request:
with a store whose `set` rejects, the computed result is thrown away and
the response is the 500 error body, not a 200 with the result; likewise
a failing read is answered 500 instead of being treated as a miss. -/
theorem c2_counterexample :
    (handleRequest setFailEnv [reportRoute] reqReport =
      [Event.cacheGet (requestCacheKey reportRoute reqReport),
       Event.invoke "rep" [Json.obj [], strObj [], strObj [], strObj []],
       Event.cacheSet (requestCacheKey reportRoute reqReport) "\"r\"" 60,
       Event.setHeader "Content-Type" "application/json",
       Event.endResponse 500 (errorBody "Internal Server Error")]) ∧
    (handleRequest getFailEnv [reportRoute] reqReport =
      [Event.cacheGet (requestCacheKey reportRoute reqReport),
       Event.setHeader "Content-Type" "application/json",
       Event.endResponse 500 (errorBody "Internal Server Error")]) :=
  ⟨rfl, rfl⟩

/-- C2 (amended): cache-store failures are surfaced to the caller as 500
responses: a failing read on a cacheable route ends the request 500
without invoking the handler, and a failing write after the handler has
computed its result ends the request 500 without returning that result. -/
theorem c2_cache_failure (env : Env) (routes : List RouteDef) (req : Request) (r : RouteDef)
    {p : ExtractedParams}
    (hf : firstMatch routes req = some r)
    (hc : r.cached = true)
    (hx : extractParams req r.fullPath = Except.ok p)
    (hauth : authenticate env r req = AuthOutcome.skip ∨
      ∃ claims, authenticate env r req = AuthOutcome.ok claims) :
    (env.cacheGet (requestCacheKey r req) = Except.error () →
      handleRequest env routes req =
        Event.cacheGet (requestCacheKey r req) :: internalErrorEvents) ∧
    (∀ result, (∀ args, env.handlers r.methodName args = Except.ok result) →
      env.cacheGet (requestCacheKey r req) = Except.ok none →
      env.cacheSet (requestCacheKey r req) (Json.render result) r.cacheTtl = Except.error () →
      ∃ args,
        handleRequest env routes req =
          [Event.cacheGet (requestCacheKey r req),
           Event.invoke r.methodName args,
           Event.cacheSet (requestCacheKey r req) (Json.render result) r.cacheTtl] ++
            internalErrorEvents) := by
  constructor
  · intro hg
    exact dispatch_cache_get_error hf hc hx hauth hg
  · intro result hhandler hg hset
    exact dispatch_cache_set_error hf hc hx hauth hhandler hg hset

theorem c2_cache_failure_witness :
    (handleRequest getFailEnv [reportRoute] reqReport =
      Event.cacheGet (requestCacheKey reportRoute reqReport) :: internalErrorEvents) ∧
    ∃ args,
      handleRequest setFailEnv [reportRoute] reqReport =
        [Event.cacheGet (requestCacheKey reportRoute reqReport),
         Event.invoke "rep" args,
         Event.cacheSet (requestCacheKey reportRoute reqReport)
           (Json.render (Json.str "r")) 60] ++ internalErrorEvents :=
  ⟨(c2_cache_failure getFailEnv [reportRoute] reqReport reportRoute
      rfl rfl rfl (Or.inl rfl)).1 rfl,
   (c2_cache_failure setFailEnv [reportRoute] reqReport reportRoute
      rfl rfl rfl (Or.inl rfl)).2 (Json.str "r") (fun _ => rfl) rfl rfl⟩

/-- C9: the cache key depends only on the route's pattern and the
request path, so two requests to the same path differing only in headers
or body share the key; and when one request's cache write is stored and
the store returns it to a second request on the same route and path, the
second response body is byte-for-byte the stored serialization (which is
never empty), served as a hit without invoking the handler. -/
theorem c9_cache_key_independence
    (env1 env2 : Env) (routes : List RouteDef) (req1 req2 : Request) (r : RouteDef)
    {p2 : ExtractedParams} (k v : String) (ttl : Nat)
    (hpath : req1.path = req2.path)
    (hf1 : firstMatch routes req1 = some r)
    (hf2 : firstMatch routes req2 = some r)
    (hc : r.cached = true)
    (hx2 : extractParams req2 r.fullPath = Except.ok p2)
    (hauth2 : authenticate env2 r req2 = AuthOutcome.skip ∨
      ∃ claims, authenticate env2 r req2 = AuthOutcome.ok claims)
    (hset : Event.cacheSet k v ttl ∈ handleRequest env1 routes req1)
    (hg2 : env2.cacheGet k = Except.ok (some v)) :
    requestCacheKey r req1 = requestCacheKey r req2 ∧
    handleRequest env2 routes req2 = hitEvents (requestCacheKey r req2) v r.cacheTtl := by
  have hkeys : requestCacheKey r req1 = requestCacheKey r req2 := by
    unfold requestCacheKey
    rw [hpath]
  obtain ⟨hk, httl, j, hv⟩ := cacheSet_mem_dispatch hf1 hset
  refine ⟨hkeys, ?_⟩
  have hg2' : env2.cacheGet (requestCacheKey r req2) = Except.ok (some v) := by
    rw [← hkeys, ← hk]
    exact hg2
  exact dispatch_cache_hit hf2 hc hx2 hauth2 hg2'
    (by rw [hv]; exact Json.render_ne_empty j)

theorem c9_cache_key_independence_witness :
    requestCacheKey authReportRoute reqReport1 = requestCacheKey authReportRoute reqReport2 ∧
    handleRequest storedREnv [authReportRoute] reqReport2 =
      hitEvents (requestCacheKey authReportRoute reqReport2) "\"r\"" 60 :=
  c9_cache_key_independence baseEnv storedREnv [authReportRoute] reqReport1 reqReport2
    authReportRoute (requestCacheKey authReportRoute reqReport1) "\"r\"" 60
    rfl rfl rfl rfl rfl
    (Or.inr ⟨bobToken.claims, rfl⟩)
    (List.mem_cons_of_mem _ (List.mem_cons_of_mem _ (List.mem_cons_self _ _)))
    rfl

/-- C1 (code evaluation at the failing input): on the route declared
with bindings `[WholeBody, Auth("sub")]`, the dispatcher spreads the
whole params record instead of assembling the declared bindings, so the
handler receives five positional arguments — the `sub` claim value
first (numeric keys precede the record's string keys in
`Object.values`), then body, path params, headers and query — rather
than the claimed two arguments with the body first. -/
theorem c1_binding_args :
    handleRequest baseEnv [bodySubRoute] reqU =
      [Event.invoke "op"
         [Json.str "alice", Json.obj [("a", Json.str "b")], strObj [],
          strObj reqU.headers, strObj []],
       Event.setHeader "Content-Type" "application/json",
       Event.endResponse 200 (Json.render (Json.str "r"))] ∧
    ([Json.str "alice", Json.obj [("a", Json.str "b")], strObj [],
      strObj reqU.headers, strObj []] : List Json).length ≠ 2 :=
  ⟨rfl, by decide⟩
